import Mathlib

/-!
Verification of the DeepResearch conversational research agent.

The development shallowly embeds the core logic of the repository's
single source file:
  * the message chunker that splits long markdown into transport-sized
    pieces at line boundaries,
  * the two-provider search aggregation,
  * the four-stage report pipeline,
  * the per-user conversation state machine.

External services (the reasoning model, the search providers, the chat
transport's markdown escaping) are modelled as explicit inputs: lists of
response events or response values, so that every definition is
executable and every run of the embedded code is a pure computation.
-/

namespace DeepResearch

/-! ## Message chunker

Embeds the source's chunking helper.  Text is a list of characters;
lengths are counted in characters, matching the reference
implementation's code-point counting. -/

/-- Characters treated as line breaks by the source's line splitter
(the reference language's universal-newline set). -/
def pyLineBreak (c : Char) : Bool :=
  c = '\n' || c = '\r' || c = '\x0b' || c = '\x0c' ||
  c = '\x1c' || c = '\x1d' || c = '\x1e' || c = '\x85' ||
  c = '\u2028' || c = '\u2029'

/-- Split a character list into lines, keeping the line terminators,
with a carriage-return/line-feed pair kept as one terminator.  Embeds
the source's call that splits text into lines with terminators kept. -/
def pySplitlinesKE : List Char → List (List Char)
  | [] => []
  | c :: cs =>
    if pyLineBreak c then
      match cs with
      | c2 :: cs2 =>
        if c = '\r' && c2 = '\n' then ['\r', '\n'] :: pySplitlinesKE cs2
        else [c] :: pySplitlinesKE (c2 :: cs2)
      | [] => [[c]]
    else
      match pySplitlinesKE cs with
      | [] => [[c]]
      | l :: ls => (c :: l) :: ls

/-- The loop body of the source's chunker: greedily fill a buffer with
whole lines, flushing the buffer whenever the next line would make it
exceed the limit, and flush the trailing nonempty buffer at the end. -/
def splitMessageLoop (limit : Nat) : List (List Char) → List Char → List (List Char)
  | [], buf => if buf.isEmpty then [] else [buf]
  | line :: rest, buf =>
    if buf.length + line.length > limit then
      buf :: splitMessageLoop limit rest line
    else
      splitMessageLoop limit rest (buf ++ line)

/-- Embeds the source's chunker: split long markdown into chunks of at
most the given limit without breaking a line across chunks. -/
def _split_message (md : List Char) (limit : Nat) : List (List Char) :=
  splitMessageLoop limit (pySplitlinesKE md) []

/-! ## Search aggregation

Provider A (Tavily) returns url/title results and a follow-up
extraction call enriches them with page content; Provider B (SERP)
returns url/title/snippet rows.  The network calls are modelled as
functions returning a value or an error. -/

/-- One result row of Provider A's search response. -/
structure TavilyResult where
  url : String
  title : String
deriving DecidableEq, Repr

/-- One successfully extracted document of the extraction response. -/
structure ExtractedDoc where
  url : String
  raw_content : String
deriving DecidableEq, Repr

/-- One failed entry of the extraction response. -/
structure FailedDoc where
  url : String
deriving DecidableEq, Repr

/-- The extraction response: successfully extracted documents and
failed entries. -/
structure ExtractResponse where
  results : List ExtractedDoc
  failed_results : List FailedDoc
deriving DecidableEq, Repr

/-- One organic result row of Provider B's response. -/
structure SerpResult where
  link : String
  title : String
  snippet : String
deriving DecidableEq, Repr

/-- An aggregated evidence entry: url and title, plus extracted content
when available. -/
structure Source where
  url : String
  title : String
  content : Option String
deriving DecidableEq, Repr

/-- Build Provider A's contentless source rows from its raw results. -/
def mkSources (rs : List TavilyResult) : List Source :=
  rs.map (fun r => ⟨r.url, r.title, none⟩)

/-- Attach extracted content to every source whose url matches an
extracted document, later extracted documents overwriting earlier ones,
exactly as the source's nested update loop does. -/
def attachContent (sources : List Source) (extracted : List ExtractedDoc) : List Source :=
  extracted.foldl
    (fun ss ex =>
      ss.map (fun s =>
        if s.url = ex.url then { s with content := some ex.raw_content } else s))
    sources

/-- The urls of the extraction response's failed entries. -/
def failedUrls (ext : ExtractResponse) : List String :=
  ext.failed_results.map (fun f => f.url)

/-- The nonempty urls of Provider A's results, in order: the urls the
source submits for extraction. -/
def tavilyUrlsToExtract (rs : List TavilyResult) : List String :=
  ((mkSources rs).filter (fun s => s.url != "")).map (fun s => s.url)

/-- Embeds the source's Provider A search: fetch results, and when any
url is nonempty, extract content for all nonempty urls, enrich the
matching rows and drop every row whose url is in the failed list. -/
def tavily_search (searchApi : String → Except Unit (List TavilyResult))
    (extractApi : List String → Except Unit ExtractResponse)
    (query : String) : Except Unit (List Source) := do
  let results ← searchApi query
  let sources := mkSources results
  let urls_to_extract := tavilyUrlsToExtract results
  if urls_to_extract.isEmpty then
    pure sources
  else do
    let ext ← extractApi urls_to_extract
    let sources2 := attachContent sources ext.results
    pure (if (failedUrls ext).isEmpty then sources2
      else sources2.filter (fun s => !((failedUrls ext).contains s.url)))

/-- Embeds the source's Provider B search: the first five organic rows,
each carrying its snippet as content. -/
def serp_search (serpApi : String → Except Unit (List SerpResult))
    (query : String) : Except Unit (List Source) := do
  let results ← serpApi query
  pure ((results.take 5).map (fun i => ⟨i.link, i.title, some i.snippet⟩))

/-- Embeds the source's aggregation entry point: Provider A's enriched
and filtered rows followed by Provider B's rows. -/
def search_web (searchApi : String → Except Unit (List TavilyResult))
    (extractApi : List String → Except Unit ExtractResponse)
    (serpApi : String → Except Unit (List SerpResult))
    (query : String) : Except Unit (List Source) := do
  let a ← tavily_search searchApi extractApi query
  let b ← serp_search serpApi query
  pure (a ++ b)

/-! ## Report pipeline

The Reasoning Service is modelled as a function from stage name,
session id and prompt to the list of response events the stage's run
produces.  Each event optionally carries content: a list of text
fragments. -/

/-- The pipeline's four reasoning stages. -/
inductive StageName where
  | refine
  | planner
  | search
  | writer
deriving DecidableEq, Repr

/-- One response event of a Reasoning-Service run. -/
structure Event where
  isFinal : Bool
  content : Option (List String)
deriving DecidableEq, Repr

/-- The Reasoning Service: stage name, session id and prompt determine
the produced event stream. -/
structure Service where
  run : StageName → String → String → List Event

/-- One recorded Reasoning-Service call of a pipeline run. -/
structure StageCall where
  stage : StageName
  sessionId : String
  input : String
deriving DecidableEq, Repr

/-- Embeds the refine stage's event loop: take the first text fragment
of the first final event with nonempty content and stop; with no such
event the stage's output name is never bound and the run fails.  A
final event with missing content faults on the content access. -/
def refineOutput : List Event → Option String
  | [] => none
  | e :: es =>
    if e.isFinal then
      match e.content with
      | none => none
      | some [] => refineOutput es
      | some (p :: _) => some p
    else refineOutput es

/-- Embeds the planner stage's event loop: take the first text fragment
of the first final event with content and stop; a final event with
empty content faults on the fragment index; with no final event the
stage's output name is never bound and the run fails. -/
def plannerOutput : List Event → Option String
  | [] => none
  | e :: es =>
    if e.isFinal then
      match e.content with
      | none => plannerOutput es
      | some [] => none
      | some (p :: _) => some p
    else plannerOutput es

/-- All text fragments of all final events with content, in order:
what the search and writer loops accumulate (they never stop early). -/
def finalResponseParts (events : List Event) : List String :=
  (events.filter (fun e => e.isFinal && e.content.isSome)).flatMap
    (fun e => e.content.getD [])

/-- Embeds the search and writer stages' result: the accumulated
fragments joined with newlines. -/
def joinedFinalText (events : List Event) : String :=
  String.intercalate "\n" (finalResponseParts events)

/-- Embeds the source's rendering of the first stage's input: the user
query followed by a blank line and the question-answer pairs, one per
line, in question order. -/
def combinedQuery (query : String) (answers : List (String × String)) : String :=
  "User query: " ++ query ++ "\n\n" ++
    String.intercalate "\n" (answers.map (fun qa => qa.1 ++ "->" ++ qa.2))

/-- Embeds the source's report pipeline.  Returns the trace of
Reasoning-Service calls made (stage, session id, prompt) and the final
report, with none marking a run aborted by a stage failure. -/
def create_report_pipline (svc : Service) (user_id query : String)
    (answers : List (String × String)) : List StageCall × Option String :=
  let session_id := "tg_" ++ user_id
  let combined_query := combinedQuery query answers
  let c1 : StageCall := ⟨.refine, session_id, combined_query⟩
  match refineOutput (svc.run .refine session_id combined_query) with
  | none => ([c1], none)
  | some refined_query =>
    let c2 : StageCall := ⟨.planner, session_id, refined_query⟩
    match plannerOutput (svc.run .planner session_id refined_query) with
    | none => ([c1, c2], none)
    | some search_plan =>
      let c3 : StageCall := ⟨.search, session_id, search_plan⟩
      let search_results := joinedFinalText (svc.run .search session_id search_plan)
      let c4 : StageCall := ⟨.writer, session_id, search_results⟩
      let report := joinedFinalText (svc.run .writer session_id search_results)
      ([c1, c2, c3, c4], some report)

/-! ## Conversation state machine

Per-user state handled by the text-message handler.  The handler's
external collaborators are modelled in an environment: the clarifying
agent's event stream, the pipeline's Reasoning Service, and the chat
transport's markdown escaping function.  A turn records the state
mutations that have happened (mutations persist even when the handler
then faults), the replies sent, the email-stage invocations, and
whether the handler raised. -/

/-- Whitespace characters removed by the source language's strip. -/
def pySpace (c : Char) : Bool :=
  c = ' ' || c = '\t' || c = '\n' || c = '\r' || c = '\x0b' || c = '\x0c'

/-- Strip leading and trailing whitespace from a character list. -/
def pyStrip (l : List Char) : List Char :=
  ((l.dropWhile pySpace).reverse.dropWhile pySpace).reverse

/-- Strip leading and trailing whitespace from a string. -/
def pyStripS (s : String) : String :=
  ⟨pyStrip s.data⟩

/-- Split a character list on the newline character, keeping empty
pieces, exactly like the source language's split on a newline. -/
def pySplitNl : List Char → List (List Char)
  | [] => [[]]
  | c :: cs =>
    if c = '\n' then [] :: pySplitNl cs
    else
      match pySplitNl cs with
      | [] => [[c]]
      | l :: ls => (c :: l) :: ls

/-- Embeds the source's question-list comprehension: split the text on
newlines, strip every piece, and keep the nonempty ones. -/
def stripNonempty (t : String) : List String :=
  (((pySplitNl t.data).map pyStrip).filter (fun l => !l.isEmpty)).map (fun l => ⟨l⟩)

/-- Lower-case a string character by character. -/
def pyLower (s : String) : String :=
  ⟨s.data.map Char.toLower⟩

/-- The conversation stages of a user session. -/
inductive Stage where
  | waiting_query
  | asking
  | email_decision
  | email_addr
deriving DecidableEq, Repr

/-- The per-user conversation state kept by the handler: current stage,
stored clarifying questions, original query, answers in insertion
order, question cursor, and the last report when one exists. -/
structure UserData where
  stage : Stage
  questions : List String
  query : String
  answers : List (String × String)
  q_idx : Nat
  report : Option String
deriving DecidableEq, Repr

/-- A fresh session, as created by the start command: waiting for a
query, with every other field unset. -/
def initData : UserData :=
  ⟨.waiting_query, [], "", [], 0, none⟩

/-- The handler's external collaborators: the clarify agent's event
stream for a given input, the pipeline's Reasoning Service, and the
chat transport's markdown escaping function. -/
structure Env where
  clarify : String → List Event
  svc : Service
  escape : String → String

/-- The observable outcome of one handler turn: the session data after
all mutations that happened, the replies sent in order, the prompts
sent to the email stage, and whether the handler raised. -/
structure Turn where
  data : UserData
  sent : List String
  emailPrompts : List String
  crashed : Bool
deriving DecidableEq, Repr

/-- Reply sent when the third answer arrives. -/
def msgWorking : String :=
  "I have all the information I need. I'm working on your report now."

/-- Reply asking the email yes-or-no question. -/
def msgEmailQ : String :=
  "Do you want to email the report to yourself? (yes/no)"

/-- Reply when the user declines the email. -/
def msgNo : String :=
  "No problem. Do you have any question?"

/-- Reply asking for the email address. -/
def msgGreat : String :=
  "Great! Please provide the email address."

/-- Reply rejecting an address without the at sign. -/
def msgBadEmail : String :=
  "That doesn't look like an e-mail address. Try again."

/-- Reply confirming the email was sent. -/
def msgSent : String :=
  "Sent! ✅"

/-- Insert into an insertion-ordered mapping: an existing key keeps its
position and gets the new value, a new key is appended. -/
def dictInsert (d : List (String × String)) (k v : String) :
    List (String × String) :=
  if d.any (fun kv => kv.1 == k) then
    d.map (fun kv => if kv.1 == k then (k, v) else kv)
  else
    d ++ [(k, v)]

/-- Embeds the clarify event loop: every final event with content
overwrites the question list with the split-and-stripped first
fragment; a final event with content but no fragment faults on the
fragment index (modelled as none). -/
def clarifyLoop : List Event → List String → Option (List String)
  | [], qs => some qs
  | e :: es, qs =>
    if e.isFinal then
      match e.content with
      | none => clarifyLoop es qs
      | some [] => none
      | some (p :: _) => clarifyLoop es (stripNonempty p)
    else clarifyLoop es qs

/-- The question list produced by the clarify event loop, starting from
the empty list as the source does. -/
def clarifyQuestions (events : List Event) : Option (List String) :=
  clarifyLoop events []

/-- Embeds the source's text-message handler: one conversation turn.
Mutations performed before a fault persist in the returned data,
mirroring the in-place mutation of the per-user storage. -/
def handle_text (env : Env) (uid : String) (u : UserData) (raw : String) : Turn :=
  let text := pyStripS raw
  match u.stage with
  | .waiting_query =>
    match clarifyQuestions (env.clarify text) with
    | none => ⟨u, [], [], true⟩
    | some qs0 =>
      let questions := qs0.drop 1
      let u1 := { u with stage := .asking, questions := questions, query := text,
                         answers := [], q_idx := 0 }
      match questions with
      | [] => ⟨u1, [], [], true⟩
      | q0 :: _ => ⟨u1, [q0], [], false⟩
  | .asking =>
    match u.questions.get? u.q_idx with
    | none => ⟨u, [], [], true⟩
    | some current_q =>
      let u1 := { u with answers := dictInsert u.answers current_q text,
                         q_idx := u.q_idx + 1 }
      if u.q_idx < 2 then
        match u.questions.get? (u.q_idx + 1) with
        | none => ⟨u1, [], [], true⟩
        | some next_q => ⟨u1, [next_q], [], false⟩
      else
        match (create_report_pipline env.svc uid u1.query u1.answers).2 with
        | none => ⟨u1, [msgWorking], [], true⟩
        | some report =>
          let u2 := { u1 with report := some report, stage := .email_decision }
          let chunks := (_split_message report.data 4096).map (fun c => env.escape ⟨c⟩)
          ⟨u2, msgWorking :: (chunks ++ [msgEmailQ]), [], false⟩
  | .email_decision =>
    if pyLower text ∈ (["yes", "y", "yeah", "sure"] : List String) then
      ⟨{ u with stage := .email_addr }, [msgGreat], [], false⟩
    else
      ⟨{ u with stage := .waiting_query }, [msgNo], [], false⟩
  | .email_addr =>
    let email := pyStripS text
    if !(email.data.contains '@') then
      ⟨u, [msgBadEmail], [], false⟩
    else
      match u.report with
      | none => ⟨u, [], [], true⟩
      | some r =>
        let prompt := "Report to send:\n\n" ++ r ++ "\n\nE-mail address: " ++ email
        ⟨{ u with stage := .waiting_query }, [msgSent], [prompt], false⟩

/-- Run a sequence of incoming messages through the handler, keeping
the mutated session data across turns, faults included, as the chat
framework does. -/
def runTurns (env : Env) (uid : String) : UserData → List String → UserData
  | u, [] => u
  | u, t :: ts => runTurns env uid (handle_text env uid u t).data ts

/-- The list of turns produced by a sequence of incoming messages. -/
def turnsFrom (env : Env) (uid : String) : UserData → List String → List Turn
  | _, [] => []
  | u, t :: ts =>
    let tr := handle_text env uid u t
    tr :: turnsFrom env uid tr.data ts

/-- A concrete Reasoning Service where every stage produces one final
event carrying one text fragment. -/
def svcOne : Service := ⟨fun _ _ _ => [⟨true, some ["out"]⟩]⟩

/-- A concrete environment whose clarify agent returns a preamble and
three questions, with the one-fragment service and identity escaping. -/
def envThree : Env := ⟨fun _ => [⟨true, some ["preamble\nQ1\nQ2\nQ3"]⟩], svcOne, fun s => s⟩

/-- A concrete environment whose clarify agent returns only one usable
line after the discarded preamble. -/
def envOneQuestion : Env := ⟨fun _ => [⟨true, some ["pre\nonly one"]⟩], svcOne, fun s => s⟩

/-- A concrete environment whose Reasoning Service produces no events,
so every pipeline stage fails. -/
def envNoService : Env :=
  ⟨fun _ => [⟨true, some ["preamble\nQ1\nQ2\nQ3"]⟩], ⟨fun _ _ _ => []⟩, fun s => s⟩

/-- A concrete session in the address-collection stage holding a report. -/
def uAddr : UserData := ⟨.email_addr, [], "", [], 0, some "rep"⟩

/-- A concrete session in the asking stage at the third question. -/
def uAsk2 : UserData := ⟨.asking, ["A", "B", "C"], "q", [("A", "x"), ("B", "y")], 2, none⟩

/-- Concrete Provider A results used by the aggregation witnesses. -/
def tavItems : List TavilyResult := [⟨"u1", "t1"⟩, ⟨"u2", "t2"⟩]

/-- Concrete extraction response used by the aggregation witnesses:
extraction succeeded for the first url and failed for the second. -/
def extItems : ExtractResponse := ⟨[⟨"u1", "c1"⟩], [⟨"u2"⟩]⟩

/-- Concrete Provider B results used by the aggregation witnesses. -/
def serpItems : List SerpResult := [⟨"u3", "t3", "s3"⟩]

/-- A concrete Reasoning Service where every stage produces one final
event carrying two text fragments. -/
def svcTwoParts : Service := ⟨fun _ _ _ => [⟨true, some ["a", "b"]⟩]⟩


/-- Concatenating the lines produced by the keep-ends splitter restores
the original text. -/
theorem pySplitlinesKE_flatten (cs : List Char) : (pySplitlinesKE cs).flatten = cs := by
  induction cs using pySplitlinesKE.induct with
  | case1 => rfl
  | case2 c hbr c2 cs2 hrn ih =>
    rw [pySplitlinesKE.eq_def]
    simp only [hbr, if_true, hrn, List.flatten_cons]
    have hc : c = '\r' := by
      rcases Bool.and_eq_true_iff.mp hrn with ⟨h1, _⟩
      exact of_decide_eq_true h1
    have hc2 : c2 = '\n' := by
      rcases Bool.and_eq_true_iff.mp hrn with ⟨_, h2⟩
      exact of_decide_eq_true h2
    simp [ih, hc, hc2]
  | case3 c hbr c2 cs2 hrn ih =>
    rw [pySplitlinesKE.eq_def]
    simp only [hbr, if_true, hrn, Bool.not_eq_true] at *
    simp [hrn, ih]
  | case4 c hbr =>
    rw [pySplitlinesKE.eq_def]
    simp [hbr]
  | case5 c cs hbr heq ih =>
    rw [pySplitlinesKE.eq_def]
    simp only [Bool.not_eq_true] at hbr
    simp [hbr, heq]
    simpa [heq] using ih
  | case6 c cs hbr l ls heq ih =>
    rw [pySplitlinesKE.eq_def]
    simp only [Bool.not_eq_true] at hbr
    simp only [hbr, if_false, heq, List.flatten_cons] at *
    simp [← List.cons_append, ih]

/-- Flattening the chunks produced by the chunker loop yields the buffer
followed by the flattened remaining lines. -/
theorem splitMessageLoop_flatten (limit : Nat) (lines : List (List Char))
    (buf : List Char) :
    (splitMessageLoop limit lines buf).flatten = buf ++ lines.flatten := by
  induction lines generalizing buf with
  | nil =>
    by_cases h : buf.isEmpty
    · simp [splitMessageLoop, h, List.isEmpty_iff.mp h]
    · simp [splitMessageLoop, h]
  | cons line rest ih =>
    by_cases h : buf.length + line.length > limit
    · simp [splitMessageLoop, h, ih]
    · simp [splitMessageLoop, h, ih]

/-- Every chunk produced by the chunker loop fits in the limit, or is
the starting buffer, or is a single input line. -/
theorem splitMessageLoop_chunk_cases (limit : Nat) (lines : List (List Char))
    (buf : List Char) :
    ∀ c ∈ splitMessageLoop limit lines buf,
      c.length ≤ limit ∨ c = buf ∨ c ∈ lines := by
  induction lines generalizing buf with
  | nil =>
    intro c hc
    by_cases h : buf.isEmpty <;> simp [splitMessageLoop, h] at hc
    · exact Or.inr (Or.inl hc)
  | cons line rest ih =>
    intro c hc
    by_cases h : buf.length + line.length > limit
    · simp only [splitMessageLoop, if_pos h, List.mem_cons] at hc
      rcases hc with rfl | hc
      · exact Or.inr (Or.inl rfl)
      · rcases ih line c hc with h1 | h2 | h3
        · exact Or.inl h1
        · exact Or.inr (Or.inr (by simp [h2]))
        · exact Or.inr (Or.inr (by simp [h3]))
    · simp only [splitMessageLoop, if_neg h] at hc
      rcases ih (buf ++ line) c hc with h1 | h2 | h3
      · exact Or.inl h1
      · refine Or.inl ?_
        subst h2
        simpa using Nat.le_of_not_lt h
      · exact Or.inr (Or.inr (by simp [h3]))

/-- Every chunk produced by the chunker loop is the concatenation of a
contiguous block of the remaining lines, possibly preceded by the
starting buffer. -/
theorem splitMessageLoop_contiguous (limit : Nat) (lines : List (List Char))
    (buf : List Char) :
    ∀ c ∈ splitMessageLoop limit lines buf,
      (∃ a sub b, lines = a ++ sub ++ b ∧ c = sub.flatten) ∨
      (∃ sub b, lines = sub ++ b ∧ c = buf ++ sub.flatten) := by
  induction lines generalizing buf with
  | nil =>
    intro c hc
    by_cases h : buf.isEmpty <;> simp [splitMessageLoop, h] at hc
    · exact Or.inr ⟨[], [], by simp, by simp [hc]⟩
  | cons line rest ih =>
    intro c hc
    by_cases h : buf.length + line.length > limit
    · simp only [splitMessageLoop, if_pos h, List.mem_cons] at hc
      rcases hc with rfl | hc
      · exact Or.inr ⟨[], line :: rest, by simp, by simp⟩
      · rcases ih line c hc with ⟨a, sub, b, hab, hcs⟩ | ⟨sub, b, hab, hcs⟩
        · exact Or.inl ⟨line :: a, sub, b, by simp [hab], hcs⟩
        · exact Or.inl ⟨[], line :: sub, b, by simp [hab], by simp [hcs]⟩
    · simp only [splitMessageLoop, if_neg h] at hc
      rcases ih (buf ++ line) c hc with ⟨a, sub, b, hab, hcs⟩ | ⟨sub, b, hab, hcs⟩
      · exact Or.inl ⟨line :: a, sub, b, by simp [hab], hcs⟩
      · exact Or.inr ⟨line :: sub, b, by simp [hab], by simp [hcs]⟩

/-- Claim C3: for every text and every limit, the concatenation of the
chunks equals the text; every chunk has length at most the limit unless
it is a single input line longer than the limit; and every chunk is the
concatenation of a contiguous block of input lines, so chunk boundaries
fall only at line boundaries already present in the input. -/
theorem splitMessage_spec (md : List Char) (limit : Nat) :
    (_split_message md limit).flatten = md ∧
    (∀ c ∈ _split_message md limit,
      c.length ≤ limit ∨ (c ∈ pySplitlinesKE md ∧ limit < c.length)) ∧
    (∀ c ∈ _split_message md limit,
      ∃ a sub b, pySplitlinesKE md = a ++ sub ++ b ∧ c = sub.flatten) := by
  refine ⟨?_, ?_, ?_⟩
  · rw [_split_message, splitMessageLoop_flatten]
    simp [pySplitlinesKE_flatten]
  · intro c hc
    rcases splitMessageLoop_chunk_cases limit (pySplitlinesKE md) [] c hc with
      h1 | h2 | h3
    · exact Or.inl h1
    · subst h2
      exact Or.inl (by simp)
    · rcases Nat.lt_or_ge limit c.length with hlt | hge
      · exact Or.inr ⟨h3, hlt⟩
      · exact Or.inl hge
  · intro c hc
    rcases splitMessageLoop_contiguous limit (pySplitlinesKE md) [] c hc with
      ⟨a, sub, b, hab, hcs⟩ | ⟨sub, b, hab, hcs⟩
    · exact ⟨a, sub, b, hab, hcs⟩
    · exact ⟨[], sub, b, by simpa using hab, by simpa using hcs⟩

/-- Claim C10: whenever the first line of the input is itself longer
than the limit, the chunker emits the empty chunk first, directly
followed by the oversized line as its own chunk. -/
theorem splitMessage_empty_first_chunk (md : List Char) (limit : Nat)
    (l : List Char) (ls : List (List Char))
    (hsplit : pySplitlinesKE md = l :: ls) (hlong : limit < l.length) :
    ∃ cs, _split_message md limit = [] :: l :: cs := by
  rw [_split_message, hsplit]
  have h0 : List.length ([] : List Char) + l.length > limit := by simpa using hlong
  rw [splitMessageLoop, if_pos h0]
  cases ls with
  | nil =>
    have hne : l.isEmpty = false := by
      cases l with
      | nil => simp at hlong
      | cons x xs => rfl
    exact ⟨[], by rw [splitMessageLoop, hne]; simp⟩
  | cons l2 ls2 =>
    have h1 : l.length + l2.length > limit :=
      lt_of_lt_of_le hlong (Nat.le_add_right _ _)
    exact ⟨splitMessageLoop limit ls2 l2, by rw [splitMessageLoop, if_pos h1]⟩

/-- Binding a successful result runs the continuation. -/
theorem exceptOkBind {ε α β : Type} (a : α) (f : α → Except ε β) :
    Except.ok a >>= f = f a := rfl

/-- Binding a failed result short-circuits. -/
theorem exceptErrorBind {ε α β : Type} (e : ε) (f : α → Except ε β) :
    Except.error e >>= f = Except.error e := rfl

/-- Enrichment never changes a row's url or title, nor the row order. -/
theorem attachContent_urls (extracted : List ExtractedDoc) (sources : List Source) :
    (attachContent sources extracted).map (fun s => (s.url, s.title)) =
      sources.map (fun s => (s.url, s.title)) := by
  induction extracted generalizing sources with
  | nil => rfl
  | cons e ex ih =>
    have hstep : attachContent sources (e :: ex) =
        attachContent
          (sources.map (fun s =>
            if s.url = e.url then { s with content := some e.raw_content } else s))
          ex := rfl
    rw [hstep, ih, List.map_map]
    refine List.map_congr_left ?_
    intro s _
    by_cases h : s.url = e.url <;> simp [h]

/-- Claim C1: when both providers and the extraction call succeed and
there is at least one url to extract, the aggregation starts from
Provider A's rows (enriched, urls and titles unchanged and in order),
removes exactly the rows whose url is in the extraction failure list,
and appends Provider B's rows unchanged after them. -/
theorem search_web_merge (searchApi : String → Except Unit (List TavilyResult))
    (extractApi : List String → Except Unit ExtractResponse)
    (serpApi : String → Except Unit (List SerpResult)) (query : String)
    (tav : List TavilyResult) (ext : ExtractResponse) (serp : List SerpResult)
    (hA : searchApi query = Except.ok tav)
    (hurls : tavilyUrlsToExtract tav ≠ [])
    (hE : extractApi (tavilyUrlsToExtract tav) = Except.ok ext)
    (hB : serpApi query = Except.ok serp) :
    ∃ partA partB,
      search_web searchApi extractApi serpApi query = Except.ok (partA ++ partB) ∧
      serp_search serpApi query = Except.ok partB ∧
      partA.Sublist (attachContent (mkSources tav) ext.results) ∧
      (∀ s ∈ partA, ((failedUrls ext).contains s.url) = false) ∧
      (∀ s ∈ attachContent (mkSources tav) ext.results,
        ((failedUrls ext).contains s.url) = false → s ∈ partA) ∧
      (attachContent (mkSources tav) ext.results).map (fun s => (s.url, s.title)) =
        tav.map (fun r => (r.url, r.title)) := by
  have hisEmpty : (tavilyUrlsToExtract tav).isEmpty = false := by
    cases h : (tavilyUrlsToExtract tav).isEmpty
    · rfl
    · exact absurd (List.isEmpty_iff.mp h) hurls
  have hAres : tavily_search searchApi extractApi query =
      Except.ok (if (failedUrls ext).isEmpty then attachContent (mkSources tav) ext.results
        else (attachContent (mkSources tav) ext.results).filter
          (fun s => !((failedUrls ext).contains s.url))) := by
    rw [tavily_search, hA, exceptOkBind]
    simp only [hisEmpty, Bool.false_eq_true, if_false]
    rw [hE, exceptOkBind]
    rfl
  refine ⟨(if (failedUrls ext).isEmpty then attachContent (mkSources tav) ext.results
      else (attachContent (mkSources tav) ext.results).filter
        (fun s => !((failedUrls ext).contains s.url))),
    (serp.take 5).map (fun i => ⟨i.link, i.title, some i.snippet⟩), ?_, ?_, ?_, ?_, ?_, ?_⟩
  · rw [search_web, hAres, exceptOkBind, serp_search, hB, exceptOkBind]
    rfl
  · rw [serp_search, hB, exceptOkBind]
    rfl
  · by_cases hfe : (failedUrls ext).isEmpty
    · simp only [hfe, if_true]
      exact List.Sublist.refl _
    · simp only [hfe, if_false]
      exact List.filter_sublist _
  · intro s hs
    by_cases hfe : (failedUrls ext).isEmpty
    · rw [List.isEmpty_iff.mp hfe]
      rfl
    · simp only [hfe, if_false] at hs
      have := (List.mem_filter.mp hs).2
      simpa using this
  · intro s hs hcont
    by_cases hfe : (failedUrls ext).isEmpty
    · simpa [hfe] using hs
    · simp only [hfe, if_false]
      exact List.mem_filter.mpr ⟨hs, by simpa using hcont⟩
  · rw [attachContent_urls]
    simp [mkSources, List.map_map]

/-- Witness for claim C1 at concrete provider responses. -/
theorem search_web_merge_witness :
    ∃ partA partB,
      search_web (fun _ => Except.ok tavItems) (fun _ => Except.ok extItems)
          (fun _ => Except.ok serpItems) "q" = Except.ok (partA ++ partB) ∧
      serp_search (fun _ => Except.ok serpItems) "q" = Except.ok partB ∧
      partA.Sublist (attachContent (mkSources tavItems) extItems.results) ∧
      (∀ s ∈ partA, ((failedUrls extItems).contains s.url) = false) ∧
      (∀ s ∈ attachContent (mkSources tavItems) extItems.results,
        ((failedUrls extItems).contains s.url) = false → s ∈ partA) ∧
      (attachContent (mkSources tavItems) extItems.results).map (fun s => (s.url, s.title)) =
        tavItems.map (fun r => (r.url, r.title)) :=
  search_web_merge (fun _ => Except.ok tavItems) (fun _ => Except.ok extItems)
    (fun _ => Except.ok serpItems) "q" tavItems extItems serpItems rfl
    (by decide) rfl rfl

/-- Counterexample for claim C2: Provider A's call fails while Provider
B succeeds with a nonempty contribution, yet the aggregation raises
instead of returning Provider B's rows. -/
theorem search_web_single_failure_counterexample :
    search_web (fun _ => Except.error ()) (fun _ => Except.ok extItems)
      (fun _ => Except.ok serpItems) "q" = Except.error () ∧
    serp_search (fun _ => Except.ok serpItems) "q" =
      Except.ok [⟨"u3", "t3", some "s3"⟩] :=
  ⟨rfl, rfl⟩

/-- Amended claim C2: a failure of either provider propagates out of
the aggregation (it never degrades to the surviving provider), and when
both providers succeed with zero results the aggregation returns the
empty list without error. -/
theorem search_web_failure_propagation
    (searchApi : String → Except Unit (List TavilyResult))
    (extractApi : List String → Except Unit ExtractResponse)
    (serpApi : String → Except Unit (List SerpResult))
    (query : String) (srcs : List Source)
    (hA : tavily_search searchApi extractApi query = Except.ok srcs) :
    search_web (fun _ => Except.error ()) extractApi serpApi query = Except.error () ∧
    (serpApi query = Except.error () →
      search_web searchApi extractApi serpApi query = Except.error ()) ∧
    search_web (fun _ => Except.ok []) extractApi (fun _ => Except.ok []) query =
      Except.ok [] := by
  refine ⟨rfl, ?_, rfl⟩
  intro hserp
  rw [search_web, hA, exceptOkBind, serp_search, hserp, exceptErrorBind]
  rfl

/-- Witness for the amended claim C2 at concrete provider responses. -/
theorem search_web_failure_propagation_witness :
    search_web (fun _ => Except.error ()) (fun _ => Except.ok extItems)
      (fun _ => Except.error ()) "q" = Except.error () ∧
    search_web (fun _ => Except.ok []) (fun _ => Except.ok extItems)
      (fun _ => Except.error ()) "q" = Except.error () ∧
    search_web (fun _ => Except.ok []) (fun _ => Except.ok extItems)
      (fun _ => Except.ok []) "q" = Except.ok [] := by
  have h := search_web_failure_propagation (fun _ => Except.ok [])
    (fun _ => Except.ok extItems) (fun _ => Except.error ()) "q" [] rfl
  exact ⟨h.1, h.2.1 rfl, h.2.2⟩

/-- Counterexample for claim C4: with a final response event carrying
the fragments "a" and "b", the pipeline's report is the newline-join
"a\nb" of the writer stage's fragments, not their concatenation "ab"
— so a stage's result is not the concatenation of the fragments of its
final response event. -/
theorem create_report_pipline_counterexample :
    (create_report_pipline svcTwoParts "1" "q" []).2 = some "a\nb" ∧
    finalResponseParts [⟨true, some ["a", "b"]⟩] = ["a", "b"] ∧
    String.join ["a", "b"] = "ab" ∧
    ("a\nb" : String) ≠ "ab" := by
  refine ⟨rfl, rfl, rfl, ?_⟩
  decide

/-- Amended claim C4: the four stages run strictly in the order refine,
planner, search, writer, all under the single session id derived from
the user id; the first stage's input is the rendered query plus
question-answer pairs and every later stage's input is exactly the
previous stage's output; the refine and planner results are the first
text fragment of the first suitable final response event, while the
search and writer results are the newline-join of all fragments of all
final response events. -/
theorem create_report_pipline_stages (svc : Service) (uid query : String)
    (answers : List (String × String)) (r : String)
    (h : (create_report_pipline svc uid query answers).2 = some r) :
    ∃ refined_query search_plan,
      refineOutput (svc.run .refine ("tg_" ++ uid) (combinedQuery query answers)) =
        some refined_query ∧
      plannerOutput (svc.run .planner ("tg_" ++ uid) refined_query) = some search_plan ∧
      (create_report_pipline svc uid query answers).1 =
        [⟨.refine, "tg_" ++ uid, combinedQuery query answers⟩,
         ⟨.planner, "tg_" ++ uid, refined_query⟩,
         ⟨.search, "tg_" ++ uid, search_plan⟩,
         ⟨.writer, "tg_" ++ uid,
           joinedFinalText (svc.run .search ("tg_" ++ uid) search_plan)⟩] ∧
      r = joinedFinalText (svc.run .writer ("tg_" ++ uid)
            (joinedFinalText (svc.run .search ("tg_" ++ uid) search_plan))) := by
  cases hr : refineOutput (svc.run .refine ("tg_" ++ uid) (combinedQuery query answers)) with
  | none =>
    have hnone : (create_report_pipline svc uid query answers).2 = none := by
      simp only [create_report_pipline, hr]
    rw [hnone] at h
    exact absurd h (by simp)
  | some refined_query =>
    cases hp : plannerOutput (svc.run .planner ("tg_" ++ uid) refined_query) with
    | none =>
      have hnone : (create_report_pipline svc uid query answers).2 = none := by
        simp only [create_report_pipline, hr, hp]
      rw [hnone] at h
      exact absurd h (by simp)
    | some search_plan =>
      have h1 : (create_report_pipline svc uid query answers).1 =
          [⟨.refine, "tg_" ++ uid, combinedQuery query answers⟩,
           ⟨.planner, "tg_" ++ uid, refined_query⟩,
           ⟨.search, "tg_" ++ uid, search_plan⟩,
           ⟨.writer, "tg_" ++ uid,
             joinedFinalText (svc.run .search ("tg_" ++ uid) search_plan)⟩] := by
        simp only [create_report_pipline, hr, hp]
      have h2 : (create_report_pipline svc uid query answers).2 =
          some (joinedFinalText (svc.run .writer ("tg_" ++ uid)
            (joinedFinalText (svc.run .search ("tg_" ++ uid) search_plan)))) := by
        simp only [create_report_pipline, hr, hp]
      rw [h2] at h
      refine ⟨refined_query, search_plan, rfl, hp, h1, ?_⟩
      exact (Option.some_inj.mp h).symm

/-- Witness for the amended claim C4 at a concrete service. -/
theorem create_report_pipline_stages_witness :
    ∃ refined_query search_plan,
      refineOutput (svcTwoParts.run .refine ("tg_" ++ "1") (combinedQuery "q" [])) =
        some refined_query ∧
      plannerOutput (svcTwoParts.run .planner ("tg_" ++ "1") refined_query) =
        some search_plan ∧
      (create_report_pipline svcTwoParts "1" "q" []).1 =
        [⟨.refine, "tg_" ++ "1", combinedQuery "q" []⟩,
         ⟨.planner, "tg_" ++ "1", refined_query⟩,
         ⟨.search, "tg_" ++ "1", search_plan⟩,
         ⟨.writer, "tg_" ++ "1",
           joinedFinalText (svcTwoParts.run .search ("tg_" ++ "1") search_plan)⟩] ∧
      "a\nb" = joinedFinalText (svcTwoParts.run .writer ("tg_" ++ "1")
            (joinedFinalText (svcTwoParts.run .search ("tg_" ++ "1") search_plan))) :=
  create_report_pipline_stages svcTwoParts "1" "q" [] "a\nb" rfl

/-- Claim C5: starting in the asking stage with three distinct stored
questions and no recorded answers, three answer turns leave the state
in asking after the first two answers with the cursor advanced and the
answers recorded under the question keys in order; the third answer
runs the pipeline, records the third answer, ends with cursor three and
moves the session to the email decision with the report stored. -/
theorem handle_text_three_answers (env : Env) (uid qry q1 q2 q3 a1 a2 a3 r : String)
    (rep0 : Option String) (h12 : q1 ≠ q2) (h13 : q1 ≠ q3) (h23 : q2 ≠ q3)
    (hpipe : (create_report_pipline env.svc uid qry
        [(q1, pyStripS a1), (q2, pyStripS a2), (q3, pyStripS a3)]).2 = some r) :
    ∃ t1 t2 t3,
      turnsFrom env uid ⟨.asking, [q1, q2, q3], qry, [], 0, rep0⟩ [a1, a2, a3] =
        [t1, t2, t3] ∧
      t1.crashed = false ∧ t1.data.stage = .asking ∧ t1.data.q_idx = 1 ∧
      t1.data.answers = [(q1, pyStripS a1)] ∧ t1.sent = [q2] ∧
      t2.crashed = false ∧ t2.data.stage = .asking ∧ t2.data.q_idx = 2 ∧
      t2.data.answers = [(q1, pyStripS a1), (q2, pyStripS a2)] ∧ t2.sent = [q3] ∧
      t3.crashed = false ∧ t3.data.stage = .email_decision ∧ t3.data.q_idx = 3 ∧
      t3.data.answers = [(q1, pyStripS a1), (q2, pyStripS a2), (q3, pyStripS a3)] ∧
      t3.data.report = some r := by
  have e12 : (q1 == q2) = false := beq_eq_false_iff_ne.mpr h12
  have e13 : (q1 == q3) = false := beq_eq_false_iff_ne.mpr h13
  have e23 : (q2 == q3) = false := beq_eq_false_iff_ne.mpr h23
  have ht1 : handle_text env uid ⟨.asking, [q1, q2, q3], qry, [], 0, rep0⟩ a1 =
      ⟨⟨.asking, [q1, q2, q3], qry, [(q1, pyStripS a1)], 1, rep0⟩, [q2], [], false⟩ := rfl
  have ht2 : handle_text env uid
        ⟨.asking, [q1, q2, q3], qry, [(q1, pyStripS a1)], 1, rep0⟩ a2 =
      ⟨⟨.asking, [q1, q2, q3], qry, [(q1, pyStripS a1), (q2, pyStripS a2)], 2, rep0⟩,
       [q3], [], false⟩ := by
    simp only [handle_text, dictInsert, List.get?_cons_succ, List.get?_cons_zero,
      List.any_cons, List.any_nil, e12, Bool.or_false, Bool.false_eq_true, if_false]
    norm_num
  have ht3 : handle_text env uid
        ⟨.asking, [q1, q2, q3], qry, [(q1, pyStripS a1), (q2, pyStripS a2)], 2, rep0⟩ a3 =
      ⟨⟨.email_decision, [q1, q2, q3], qry,
          [(q1, pyStripS a1), (q2, pyStripS a2), (q3, pyStripS a3)], 3, some r⟩,
       msgWorking :: ((_split_message r.data 4096).map (fun c => env.escape ⟨c⟩) ++ [msgEmailQ]),
       [], false⟩ := by
    simp only [handle_text, dictInsert, List.get?_cons_succ, List.get?_cons_zero,
      List.any_cons, List.any_nil, e13, e23, Bool.or_false, Bool.false_eq_true, if_false,
      List.cons_append, List.nil_append]
    rw [if_neg (by decide : ¬ (2 : Nat) < 2)]
    split
    · next heq =>
        rw [heq] at hpipe
        exact absurd hpipe (by simp)
    · next report heq =>
        rw [heq] at hpipe
        obtain rfl : report = r := Option.some_inj.mp hpipe
        rfl
  refine ⟨⟨⟨.asking, [q1, q2, q3], qry, [(q1, pyStripS a1)], 1, rep0⟩, [q2], [], false⟩,
    ⟨⟨.asking, [q1, q2, q3], qry, [(q1, pyStripS a1), (q2, pyStripS a2)], 2, rep0⟩,
      [q3], [], false⟩,
    ⟨⟨.email_decision, [q1, q2, q3], qry,
        [(q1, pyStripS a1), (q2, pyStripS a2), (q3, pyStripS a3)], 3, some r⟩,
      msgWorking :: ((_split_message r.data 4096).map (fun c => env.escape ⟨c⟩) ++ [msgEmailQ]),
      [], false⟩,
    ?_, rfl, rfl, rfl, rfl, rfl, rfl, rfl, rfl, rfl, rfl, rfl, rfl, rfl, rfl, rfl⟩
  simp only [turnsFrom, ht1, ht2, ht3]

/-- Witness for claim C5 at a concrete environment and three distinct
questions. -/
theorem handle_text_three_answers_witness :
    ∃ t1 t2 t3,
      turnsFrom envThree "5" ⟨.asking, ["Q1", "Q2", "Q3"], "qy", [], 0, none⟩
          ["a1", "a2", "a3"] = [t1, t2, t3] ∧
      t1.crashed = false ∧ t1.data.stage = .asking ∧ t1.data.q_idx = 1 ∧
      t1.data.answers = [("Q1", pyStripS "a1")] ∧ t1.sent = ["Q2"] ∧
      t2.crashed = false ∧ t2.data.stage = .asking ∧ t2.data.q_idx = 2 ∧
      t2.data.answers = [("Q1", pyStripS "a1"), ("Q2", pyStripS "a2")] ∧ t2.sent = ["Q3"] ∧
      t3.crashed = false ∧ t3.data.stage = .email_decision ∧ t3.data.q_idx = 3 ∧
      t3.data.answers = [("Q1", pyStripS "a1"), ("Q2", pyStripS "a2"),
        ("Q3", pyStripS "a3")] ∧
      t3.data.report = some "out" :=
  handle_text_three_answers envThree "5" "qy" "Q1" "Q2" "Q3" "a1" "a2" "a3" "out" none
    (by decide) (by decide) (by decide) (by decide)

/-- Counterexample for claim C6: after the pipeline has run and the
user declines the email, the session is back in the waiting stage while
the report field is still defined, so the report is not defined only in
the email stages. -/
theorem report_defined_iff_counterexample :
    (runTurns envThree "7" initData ["topic", "a1", "a2", "a3", "nah"]).stage =
      Stage.waiting_query ∧
    (runTurns envThree "7" initData ["topic", "a1", "a2", "a3", "nah"]).report =
      some "out" := by
  decide

/-- Amended claim C6: whenever the report is defined in the email
stages it stays defined, and the report field is never cleared by a
turn — in particular it remains defined after the transition back to
the waiting stage.  Formally: a turn preserves the invariant that the
email stages carry a defined report, and a turn never unsets a defined
report. -/
theorem report_persistence (env : Env) (uid : String) (u : UserData) (raw : String)
    (hP : (u.stage = Stage.email_decision ∨ u.stage = Stage.email_addr) →
      u.report.isSome = true) :
    (((handle_text env uid u raw).data.stage = Stage.email_decision ∨
        (handle_text env uid u raw).data.stage = Stage.email_addr) →
      (handle_text env uid u raw).data.report.isSome = true) ∧
    (u.report.isSome = true → (handle_text env uid u raw).data.report.isSome = true) := by
  rcases u with ⟨st, qs, qry, ans, qidx, rep⟩
  cases st with
  | waiting_query =>
    simp only [handle_text]
    split
    · simp
    · split <;> simp
  | asking =>
    simp only [handle_text]
    split
    · simp
    · split
      · split <;> simp
      · split
        · simp
        · simp
  | email_decision =>
    simp only [handle_text]
    split
    · exact ⟨fun _ => hP (Or.inl rfl), fun h => h⟩
    · simp
  | email_addr =>
    simp only [handle_text]
    split
    · exact ⟨fun _ => hP (Or.inr rfl), fun h => h⟩
    · split
      · exact ⟨fun _ => hP (Or.inr rfl), fun h => h⟩
      · simp

/-- Witness for the amended claim C6 at a concrete address-stage
session holding a report. -/
theorem report_persistence_witness :
    (((handle_text envThree "u" uAddr "x").data.stage = Stage.email_decision ∨
        (handle_text envThree "u" uAddr "x").data.stage = Stage.email_addr) →
      (handle_text envThree "u" uAddr "x").data.report.isSome = true) ∧
    (uAddr.report.isSome = true →
      (handle_text envThree "u" uAddr "x").data.report.isSome = true) :=
  report_persistence envThree "u" uAddr "x" (by decide)

/-- Amended claim C7: when the pipeline fails during the third answer's
turn, the handler records the answer and advances the cursor, sends
only the working notice, raises, and leaves the session in the asking
stage — it does not return the session to the waiting stage and sends
no failure message. -/
theorem handle_text_pipeline_failure (env : Env) (uid : String) (u : UserData)
    (raw q : String) (hstage : u.stage = Stage.asking)
    (hq : u.questions.get? u.q_idx = some q) (hidx : ¬ u.q_idx < 2)
    (hfail : (create_report_pipline env.svc uid u.query
        (dictInsert u.answers q (pyStripS raw))).2 = none) :
    handle_text env uid u raw =
      ⟨{ u with answers := dictInsert u.answers q (pyStripS raw), q_idx := u.q_idx + 1 },
       [msgWorking], [], true⟩ := by
  rcases u with ⟨st, qs, qry, ans, qidx, rep⟩
  simp only at hstage hq hidx hfail
  subst hstage
  simp only [handle_text]
  split
  · next heq =>
      rw [heq] at hq
      exact absurd hq (by simp)
  · next current_q heq =>
      rw [heq] at hq
      obtain rfl : current_q = q := Option.some_inj.mp hq
      rw [if_neg hidx]
      split
      · rfl
      · next report heq2 =>
          rw [heq2] at hfail
          exact absurd hfail (by simp)

/-- Counterexample for claim C7: at a concrete third-answer turn where
the Reasoning Service produces no events, the handler raises, the
session stays in the asking stage instead of returning to the waiting
stage, and the only message sent is the working notice — the user is
never told the report could not be generated. -/
theorem pipeline_failure_counterexample :
    (handle_text envNoService "9" uAsk2 "z").crashed = true ∧
    (handle_text envNoService "9" uAsk2 "z").data.stage = Stage.asking ∧
    (handle_text envNoService "9" uAsk2 "z").data.stage ≠ Stage.waiting_query ∧
    (handle_text envNoService "9" uAsk2 "z").sent = [msgWorking] := by
  decide

/-- Witness for the amended claim C7 at a concrete session and failing
service. -/
theorem handle_text_pipeline_failure_witness :
    handle_text envNoService "9" uAsk2 "z" =
      ⟨{ uAsk2 with
          answers := dictInsert uAsk2.answers "C" (pyStripS "z")
          q_idx := uAsk2.q_idx + 1 },
        [msgWorking], [], true⟩ :=
  handle_text_pipeline_failure envNoService "9" uAsk2 "z" "C" rfl (by decide)
    (by decide) (by decide)

/-- Claim C8: when the clarify response leaves fewer than two usable
lines after the discarded first line, the question lookups fail with a
hard fault: either the waiting-stage handler itself raises on the first
question lookup, or it succeeds and the very next answer turn raises on
the next-question lookup. -/
theorem handle_text_few_questions (env : Env) (uid : String) (u : UserData)
    (raw : String) (qs0 : List String) (hstage : u.stage = Stage.waiting_query)
    (hclar : clarifyQuestions (env.clarify (pyStripS raw)) = some qs0)
    (hlen : (qs0.drop 1).length < 2) :
    (handle_text env uid u raw).crashed = true ∨
    ((handle_text env uid u raw).crashed = false ∧
      ∀ a, (handle_text env uid (handle_text env uid u raw).data a).crashed = true) := by
  rcases u with ⟨st, qs, qry, ans, qidx, rep⟩
  simp only at hstage
  subst hstage
  simp only [handle_text]
  split
  · exact Or.inl rfl
  · next qs1 heq =>
      rw [heq] at hclar
      replace hclar := Option.some_inj.mp hclar
      subst hclar
      split
      · exact Or.inl rfl
      · next q0 tail heq2 =>
          rw [heq2] at hlen
          cases tail with
          | cons q2 rest2 =>
            simp at hlen
            omega
          | nil =>
            refine Or.inr ⟨rfl, fun a => ?_⟩
            rw [heq2]
            rfl

/-- Witness for claim C8 at a concrete clarify response with a single
usable line: the first turn succeeds and the next answer turn raises. -/
theorem handle_text_few_questions_witness :
    (handle_text envOneQuestion "8" initData "hi").crashed = false ∧
    (handle_text envOneQuestion "8"
      (handle_text envOneQuestion "8" initData "hi").data "ans").crashed = true := by
  have h := handle_text_few_questions envOneQuestion "8" initData "hi"
    ["pre", "only one"] rfl (by decide) (by decide)
  rcases h with h | ⟨h1, h2⟩
  · exact absurd h (by decide)
  · exact ⟨h1, h2 "ans"⟩

/-- Dropping a prefix by a predicate the element fails keeps membership
unchanged. -/
theorem mem_dropWhile_of_not {p : Char → Bool} {c : Char} (hc : p c = false)
    (l : List Char) : c ∈ l.dropWhile p ↔ c ∈ l := by
  induction l with
  | nil => simp
  | cons x xs ih =>
    by_cases h : p x
    · rw [List.dropWhile_cons_of_pos h, ih]
      have hne : c ≠ x := fun hcx => by rw [hcx, h] at hc; cases hc
      simp [hne]
    · rw [List.dropWhile_cons_of_neg h]

/-- Stripping whitespace keeps membership of non-space characters. -/
theorem mem_pyStrip {c : Char} (hc : pySpace c = false) (l : List Char) :
    c ∈ pyStrip l ↔ c ∈ l := by
  rw [pyStrip]
  rw [List.mem_reverse, mem_dropWhile_of_not hc, List.mem_reverse,
    mem_dropWhile_of_not hc]

/-- Claim C9: in the address-collection stage with a stored report, a
message without the at sign gets the rejection reply, triggers no email
stage call and leaves the state unchanged; a message with the at sign
invokes the email stage with the stored report and the stripped
address, confirms, and returns the session to the waiting stage. -/
theorem handle_text_email_addr (env : Env) (uid : String) (u : UserData)
    (raw r : String) (hstage : u.stage = Stage.email_addr)
    (hrep : u.report = some r) :
    ('@' ∉ raw.data →
      handle_text env uid u raw = ⟨u, [msgBadEmail], [], false⟩) ∧
    ('@' ∈ raw.data →
      handle_text env uid u raw =
        ⟨{ u with stage := Stage.waiting_query }, [msgSent],
         ["Report to send:\n\n" ++ r ++ "\n\nE-mail address: " ++ pyStripS (pyStripS raw)],
         false⟩) := by
  rcases u with ⟨st, qs, qry, ans, qidx, rep⟩
  simp only at hstage hrep
  subst hstage
  subst hrep
  have hmem : '@' ∈ (pyStripS (pyStripS raw)).data ↔ '@' ∈ raw.data := by
    show '@' ∈ pyStrip (pyStrip raw.data) ↔ '@' ∈ raw.data
    rw [mem_pyStrip (by decide), mem_pyStrip (by decide)]
  constructor
  · intro hno
    have hcontains : ((pyStripS (pyStripS raw)).data.contains '@') = false := by
      have hnm : '@' ∉ (pyStripS (pyStripS raw)).data := fun hm => hno (hmem.mp hm)
      simpa using hnm
    simp only [handle_text, hcontains]
    rfl
  · intro hyes
    have hcontains : ((pyStripS (pyStripS raw)).data.contains '@') = true := by
      have hm : '@' ∈ (pyStripS (pyStripS raw)).data := hmem.mpr hyes
      simpa using hm
    simp only [handle_text, hcontains]
    rfl

/-- Witness for claim C9 at a concrete session with a stored report:
one address without the at sign and one with it. -/
theorem handle_text_email_addr_witness :
    handle_text envThree "u" uAddr "abc" = ⟨uAddr, [msgBadEmail], [], false⟩ ∧
    handle_text envThree "u" uAddr " a@b " =
      ⟨{ uAddr with stage := Stage.waiting_query }, [msgSent],
       ["Report to send:\n\n" ++ "rep" ++ "\n\nE-mail address: " ++
         pyStripS (pyStripS " a@b ")],
       false⟩ ∧
    pyStripS (pyStripS " a@b ") = "a@b" := by
  have h1 := handle_text_email_addr envThree "u" uAddr "abc" "rep" rfl rfl
  have h2 := handle_text_email_addr envThree "u" uAddr " a@b " "rep" rfl rfl
  exact ⟨h1.1 (by decide), h2.2 (by decide), by decide⟩

/-- Witness for claim C10 at a concrete input: the first line of the
text has length above the limit, and the chunker emits the empty chunk
and then that line. -/
theorem splitMessage_empty_first_chunk_witness :
    pySplitlinesKE "abcdef\ncd".toList = ["abcdef\n".toList, "cd".toList] ∧
    (2 : Nat) < "abcdef\n".toList.length ∧
    ∃ cs, _split_message "abcdef\ncd".toList 2 = [] :: "abcdef\n".toList :: cs :=
  ⟨by decide, by decide,
    splitMessage_empty_first_chunk ("abcdef\ncd".toList) 2 ("abcdef\n".toList)
      (["cd".toList]) (by decide) (by decide)⟩

end DeepResearch
